import Mathlib

/-!
Verification of the source-reader subsystem of the mcp-servers-manager
repository (src/utils/system_utils.py), against its specification.

Modelling conventions (shallow embedding):

* JSON values decoded by Python's json.load are modelled by JValue.
  A Python dict is an association list of string keys (keys produced by
  json.load are unique; lookup returns the first match); Python None and
  JSON null are both JValue.null, which is exactly how json.load behaves.
* The filesystem is modelled by the outcome of opening and json-decoding a
  path: FileData.missing (os.path.exists is False), FileData.unreadable
  (the file exists but open/read raises an OSError or UnicodeDecodeError),
  FileData.invalid raw (the file reads as raw text raw but json.load raises
  json.JSONDecodeError), FileData.valid j (json.load returns j).
* Python exceptions are modelled with Except PyExc: a function that can
  raise returns Except PyExc (List Server).
* Python truthiness (bool(x)) is the function truthy; Python `a or b` is
  pyOr a b.
-/

/-- A JSON value as decoded by Python's json module. -/
inductive JValue where
  | null : JValue
  | bool (b : Bool) : JValue
  | num (n : Int) : JValue
  | str (s : String) : JValue
  | arr (items : List JValue) : JValue
  | obj (fields : List (String × JValue)) : JValue

/-- Python truthiness of a decoded JSON value: bool(x). -/
def truthy : JValue → Bool
  | .null => false
  | .bool b => b
  | .num n => n != 0
  | .str s => s ≠ ""
  | .arr items => !items.isEmpty
  | .obj fields => !fields.isEmpty

/-- isinstance(x, str) on a decoded JSON value. -/
def isStr : JValue → Bool
  | .str _ => true
  | _ => false

/-- isinstance(x, dict) on a decoded JSON value. -/
def isObj : JValue → Bool
  | .obj _ => true
  | _ => false

/-- Python dict.get(key, default) over the association-list model. -/
def getD (fields : List (String × JValue)) (key : String) (dflt : JValue) : JValue :=
  match fields with
  | [] => dflt
  | (k, v) :: rest => if k = key then v else getD rest key dflt

/-- Python dict.get(key) (default None) lifted to JValue; on a non-object it is
only called where the source has already established isinstance(x, dict). -/
def jget (j : JValue) (key : String) : JValue :=
  match j with
  | .obj fields => getD fields key .null
  | _ => .null

/-- Python `a or b`: a if a is truthy, else b. -/
def pyOr (a b : JValue) : JValue :=
  if truthy a then a else b

/-- Python exceptions that the embedded functions can raise. -/
inductive PyExc where
  | fileNotFoundError (path : String) : PyExc
  | valueError (msg : String) : PyExc
  | attributeError : PyExc
  | typeError : PyExc
  | osError : PyExc
deriving DecidableEq

/-- The outcome of locating, opening and json-decoding one file path. -/
inductive FileData where
  | missing : FileData
  | unreadable : FileData
  | invalid (raw : String) : FileData
  | valid (j : JValue) : FileData

/-- models/utils.py: class SERVER_TYPE(Enum). -/
inductive SERVER_TYPE where
  | LOCAL : SERVER_TYPE
  | REMOTE : SERVER_TYPE
deriving DecidableEq

/-- models/utils.py: class SERVER_SOURCE(Enum) (VC_CODE is the source's
spelling). -/
inductive SERVER_SOURCE where
  | CLAUDE_DESKTOP : SERVER_SOURCE
  | VC_CODE : SERVER_SOURCE
  | CURSOR : SERVER_SOURCE
  | WINDSURF : SERVER_SOURCE
deriving DecidableEq

/-- models/server.py: class Server. The constructor defaults are cmd = ""
and cmd_args = None; url, cmd and cmd_args keep the Python value they were
constructed with, which is not always a string (see the legacy Cursor list),
so they are JValue. Whenever the source constructs a Server, name has been
established to be a Python str (id is derived from it by str.replace). -/
structure Server where
  id : String
  name : String
  url : JValue
  server_type : SERVER_TYPE
  server_source : SERVER_SOURCE
  cmd : JValue := .str ""
  cmd_args : JValue := .null

/-- Python's name.replace(" ", "_"): for a one-character pattern and
replacement, str.replace is exactly a character map over the string. -/
def replaceSpaces (s : String) : String :=
  String.mk (s.data.map fun c => if c = ' ' then '_' else c)

/-- system_utils.py lines 37-48, one iteration of the Claude Desktop loop:
srv.get("command") raises AttributeError when the entry value is not a dict. -/
def claudeEntry (name : String) (srv : JValue) : Except PyExc Server :=
  match srv with
  | .obj _ =>
    .ok { id := replaceSpaces name
          name := name
          url := .str ""
          server_type := .LOCAL
          server_source := .CLAUDE_DESKTOP
          cmd := jget srv "command"
          cmd_args := jget srv "args" }
  | _ => .error .attributeError

/-- The Claude Desktop loop over the mcpServers items, in insertion order;
an AttributeError raised at any entry propagates out of the whole loop. -/
def claudeLoop : List (String × JValue) → Except PyExc (List Server)
  | [] => .ok []
  | (name, srv) :: rest =>
    match claudeEntry name srv with
    | .error e => .error e
    | .ok s =>
      match claudeLoop rest with
      | .error e => .error e
      | .ok l => .ok (s :: l)

/-- system_utils.py lines 14-50: get_mcp_servers_from_claude_desktop.
The try/except around open + json.load turns unreadable or invalid files
into an empty result; the shape check data.get("mcpServers") sits outside
the try block and raises AttributeError when json.load returned a non-dict. -/
def get_mcp_servers_from_claude_desktop (f : FileData) : Except PyExc (List Server) :=
  match f with
  | .missing => .ok []
  | .unreadable => .ok []
  | .invalid _ => .ok []
  | .valid data =>
    match data with
    | .obj _ =>
      match jget data "mcpServers" with
      | .obj entries => claudeLoop entries
      | _ => .ok []
    | _ => .error .attributeError

/-- system_utils.py lines 74-98: the local helper _create_server of
get_mcp_servers_from_cursor. It never raises. -/
def _create_server (name : String) (spec : JValue) : Server :=
  let srv_id := replaceSpaces name
  if isObj spec && isStr (jget spec "url") then
    { id := srv_id
      name := name
      url := jget spec "url"
      server_type := .REMOTE
      server_source := .CURSOR }
  else
    { id := srv_id
      name := name
      url := .str ""
      server_type := .LOCAL
      server_source := .CURSOR
      cmd := if isObj spec then jget spec "command" else .null
      cmd_args := if isObj spec then jget spec "args" else .null }

/-- The Cursor mcpServers pass (lines 100-103): one Server per item. -/
def cursorPrimary (entries : List (String × JValue)) : List Server :=
  entries.map fun p => _create_server p.1 p.2

/-- system_utils.py lines 109-127, one iteration of the Cursor legacy
"servers" loop. entry.get("name", url) can hand a non-str to name.replace,
which raises AttributeError. -/
def cursorLegacyEntry (entry : JValue) : Except PyExc (Option Server) :=
  match entry with
  | .obj fields =>
    let url := getD fields "url" .null
    if !truthy url then .ok none
    else
      match getD fields "name" url with
      | .str name =>
        .ok (some { id := replaceSpaces name
                    name := name
                    url := url
                    server_type := .REMOTE
                    server_source := .CURSOR })
      | _ => .error .attributeError
  | _ => .ok none

/-- The Cursor legacy "servers" loop, in list order; an AttributeError
raised at any entry propagates out of the whole loop. -/
def cursorLegacyLoop : List JValue → Except PyExc (List Server)
  | [] => .ok []
  | entry :: rest =>
    match cursorLegacyEntry entry with
    | .error e => .error e
    | .ok o =>
      match cursorLegacyLoop rest with
      | .error e => .error e
      | .ok l =>
        match o with
        | some s => .ok (s :: l)
        | none => .ok l

/-- system_utils.py lines 100-103: the records the mcpServers pass of the
Cursor reader contributes (nothing unless data is a dict whose mcpServers
value is a dict, per the short-circuiting isinstance guard). -/
def cursorPrimaryOf (data : JValue) : List Server :=
  match data with
  | .obj _ =>
    match jget data "mcpServers" with
    | .obj entries => cursorPrimary entries
    | _ => []
  | _ => []

/-- system_utils.py lines 108-127: the legacy pass of the Cursor reader,
appending to the servers gathered so far (guarded by the same kind of
short-circuiting isinstance checks). -/
def cursorLegacyOf (data : JValue) (servers : List Server) :
    Except PyExc (List Server) :=
  match data with
  | .obj _ =>
    match jget data "servers" with
    | .arr items =>
      match cursorLegacyLoop items with
      | .error e => .error e
      | .ok more => .ok (servers ++ more)
    | _ => .ok servers
  | _ => .ok servers

/-- system_utils.py lines 53-129: get_mcp_servers_from_cursor. The legacy
"servers" list is consulted only when the mcpServers pass produced nothing
(`if not servers and isinstance(data, dict) and ...`, with Python's
short-circuiting `and`). -/
def get_mcp_servers_from_cursor (f : FileData) : Except PyExc (List Server) :=
  match f with
  | .missing => .ok []
  | .unreadable => .ok []
  | .invalid _ => .ok []
  | .valid data =>
    let servers : List Server := cursorPrimaryOf data
    if servers.isEmpty then cursorLegacyOf data servers
    else .ok servers

/-- system_utils.py lines 132-138: get_mcp_servers_from_vscode. The body is
a stub: after the existence check it returns the empty list unconditionally,
never reading the file. -/
def get_mcp_servers_from_vscode (f : FileData) : List Server :=
  match f with
  | .missing => []
  | _ => []

/-- system_utils.py lines 187-219: the local helper _spec_to_server of
get_mcp_servers_from_windsurf. Returns none (Python None) for a non-str
name or a non-dict spec. -/
def _spec_to_server (name : JValue) (spec : JValue) : Option Server :=
  match name with
  | .str n =>
    let srv_id := replaceSpaces n
    match spec with
    | .obj _ =>
      if isStr (jget spec "url") then
        some { id := srv_id
               name := n
               url := jget spec "url"
               server_type := .REMOTE
               server_source := .WINDSURF }
      else
        some { id := srv_id
               name := n
               url := .str ""
               server_type := .LOCAL
               server_source := .WINDSURF
               cmd := pyOr (jget spec "command") (jget spec "cmd")
               cmd_args := jget spec "args" }
    | _ => none
  | _ => none

/-- The Windsurf mcpServers pass (lines 225-229): only entries for which
_spec_to_server returns a Server are kept. -/
def windsurfPrimary (entries : List (String × JValue)) : List Server :=
  entries.filterMap fun p => _spec_to_server (.str p.1) p.2

/-- system_utils.py lines 236-262, one iteration of the Windsurf legacy
"servers" loop. `name = spec.get("name") or url` can hand a non-str to
name.replace, which raises AttributeError. -/
def windsurfLegacyEntry (spec : JValue) : Except PyExc (Option Server) :=
  match spec with
  | .obj _ =>
    let url := jget spec "url"
    if !truthy url || !isStr url then
      let nameGuess := pyOr (jget spec "name") (pyOr (jget spec "label") (.str "Unnamed"))
      .ok (_spec_to_server nameGuess spec)
    else
      match pyOr (jget spec "name") url with
      | .str name =>
        .ok (some { id := replaceSpaces name
                    name := name
                    url := url
                    server_type := .REMOTE
                    server_source := .WINDSURF })
      | _ => .error .attributeError
  | _ => .ok none

/-- The Windsurf legacy "servers" loop, in list order; an AttributeError
raised at any entry propagates out of the whole loop. -/
def windsurfLegacyLoop : List JValue → Except PyExc (List Server)
  | [] => .ok []
  | spec :: rest =>
    match windsurfLegacyEntry spec with
    | .error e => .error e
    | .ok o =>
      match windsurfLegacyLoop rest with
      | .error e => .error e
      | .ok l =>
        match o with
        | some s => .ok (s :: l)
        | none => .ok l

/-- system_utils.py lines 225-229: the records the mcpServers pass of the
Windsurf reader contributes. -/
def windsurfPrimaryOf (data : JValue) : List Server :=
  match data with
  | .obj _ =>
    match jget data "mcpServers" with
    | .obj entries => windsurfPrimary entries
    | _ => []
  | _ => []

/-- system_utils.py lines 235-262: the legacy pass of the Windsurf reader,
appending to the servers gathered so far. -/
def windsurfLegacyOf (data : JValue) (servers : List Server) :
    Except PyExc (List Server) :=
  match data with
  | .obj _ =>
    match jget data "servers" with
    | .arr items =>
      match windsurfLegacyLoop items with
      | .error e => .error e
      | .ok more => .ok (servers ++ more)
    | _ => .ok servers
  | _ => .ok servers

/-- system_utils.py lines 141-264: get_mcp_servers_from_windsurf. Same
overall shape as the Cursor reader: mcpServers pass first, legacy "servers"
list only when that pass produced nothing. -/
def get_mcp_servers_from_windsurf (f : FileData) : Except PyExc (List Server) :=
  match f with
  | .missing => .ok []
  | .unreadable => .ok []
  | .invalid _ => .ok []
  | .valid data =>
    let servers : List Server := windsurfPrimaryOf data
    if servers.isEmpty then windsurfLegacyOf data servers
    else .ok servers

/-- Python `x == "literal"` for a decoded JSON value x: true only when x is
the equal str (Python equality across types is False, it does not raise). -/
def jeqStr (j : JValue) (s : String) : Bool :=
  match j with
  | .str t => t = s
  | _ => false

/-- system_utils.py lines 283-290: the manifest shape check
`isinstance(payload, dict) and isinstance(payload.get("sources"), list)`
(with Python's short-circuiting), returning the sources list when it holds. -/
def manifestSources (payload : JValue) : Option (List JValue) :=
  match payload with
  | .obj _ =>
    match jget payload "sources" with
    | .arr items => some items
    | _ => none
  | _ => none

/-- The per-descriptor block the aggregator repeats for each recognized
source id (lines 299-306, 309-314 and 317-322 are three copies of it): read
path, skip the descriptor when path is missing or falsy, else run the given
normalizer and extend all_servers with its records. A non-str truthy path
reaches os.path.exists, which raises TypeError on non-path-like values
(integer file-descriptor arguments do not occur in this application and are
modelled the same way). -/
def sourceDispatch (fields : List (String × JValue))
    (normalizer : FileData → Except PyExc (List Server))
    (fs : String → FileData) (acc : List Server) : Except PyExc (List Server) :=
  let p := getD fields "path" .null
  if !truthy p then .ok acc
  else
    match p with
    | .str s =>
      match normalizer (fs s) with
      | .error e => .error e
      | .ok r => .ok (acc ++ r)
    | _ => .error .typeError

/-- system_utils.py lines 292-322, one iteration of the aggregator loop over
the manifest's sources. server_source.get("id", None) raises AttributeError
on a non-dict entry; descriptors with a falsy or unrecognized id are
skipped. -/
def processSource (fs : String → FileData) (acc : List Server) (src : JValue) :
    Except PyExc (List Server) :=
  match src with
  | .obj fields =>
    let sid := getD fields "id" .null
    if !truthy sid then .ok acc
    else if jeqStr sid "claude-desktop" then
      sourceDispatch fields get_mcp_servers_from_claude_desktop fs acc
    else if jeqStr sid "cursor" then
      sourceDispatch fields get_mcp_servers_from_cursor fs acc
    else if jeqStr sid "windsurf" then
      sourceDispatch fields get_mcp_servers_from_windsurf fs acc
    else .ok acc
  | _ => .error .attributeError

/-- The aggregator loop over all source descriptors, threading all_servers. -/
def aggLoop (fs : String → FileData) : List JValue → List Server →
    Except PyExc (List Server)
  | [], acc => .ok acc
  | src :: rest, acc =>
    match processSource fs acc src with
    | .ok acc2 => aggLoop fs rest acc2
    | .error e => .error e

/-- system_utils.py lines 267-324: get_mcp_servers. A missing manifest
raises FileNotFoundError; a manifest that exists but cannot be read raises
the OSError from open (only json.JSONDecodeError is caught); invalid JSON
raises ValueError("Corrupted mcp_server_sources.json"); a decoded manifest
without the expected sources list yields the empty list. -/
def get_mcp_servers (fs : String → FileData) (mcp_server_sources_file : String) :
    Except PyExc (List Server) :=
  match fs mcp_server_sources_file with
  | .missing => .error (.fileNotFoundError mcp_server_sources_file)
  | .unreadable => .error .osError
  | .invalid _ => .error (.valueError "Corrupted mcp_server_sources.json")
  | .valid payload =>
    match manifestSources payload with
    | none => .ok []
    | some sources => aggLoop fs sources []

/-- The raw text begins with the characters h t t p, so it contains an
HTTP(S)-looking substring in the sense of the claimed URL scan. -/
def startsWithHttp (raw : String) : Bool :=
  "http".data.isPrefixOf raw.data

/-- The url invariant that the code actually maintains: LOCAL records carry
the empty-string url; REMOTE records carry a url that is a string (possibly
empty) or a truthy value (the legacy Cursor list keeps any truthy url). -/
def urlInv (s : Server) : Prop :=
  (s.server_type = .REMOTE → isStr s.url = true ∨ truthy s.url = true) ∧
  (s.server_type = .LOCAL → s.url = .str "")

/-- A decoded value passes isinstance(x, dict) exactly when it is an obj. -/
theorem isObj_iff (v : JValue) : isObj v = true ↔ ∃ flds, v = .obj flds := by
  cases v <;> simp [isObj]

/-- On a mcpServers mapping all of whose values are JSON objects, the Claude
Desktop loop succeeds and yields one LOCAL record per item, in order. -/
theorem claudeLoop_of_all_obj (entries : List (String × JValue))
    (hall : ∀ p ∈ entries, isObj p.2 = true) :
    claudeLoop entries = .ok (entries.map fun p =>
      { id := replaceSpaces p.1, name := p.1, url := .str "",
        server_type := .LOCAL, server_source := .CLAUDE_DESKTOP,
        cmd := jget p.2 "command", cmd_args := jget p.2 "args" }) := by
  induction entries with
  | nil => rfl
  | cons p rest ih =>
    obtain ⟨n, v⟩ := p
    have hp : isObj v = true := hall ⟨n, v⟩ (List.mem_cons_self _ _)
    have hrest : ∀ q ∈ rest, isObj q.2 = true :=
      fun q hq => hall q (List.mem_cons_of_mem _ hq)
    obtain ⟨flds, rfl⟩ := (isObj_iff v).mp hp
    simp only [claudeLoop, claudeEntry, List.map_cons]
    rw [ih hrest]

/-- C4: a Claude Desktop config whose mcpServers values are objects yields
exactly one LOCAL record per key, in order, with id the key with spaces
replaced by underscores, name the key, url empty, cmd the entry's command
and cmd_args the entry's args; at the concrete config of the claim this is
the single record (LOCAL, id "A", name "A", cmd "x", cmd_args ["y"], url "")
exhibited in the witness. -/
theorem C4_claude_one_local_record_per_key (fields entries : List (String × JValue))
    (hm : jget (.obj fields) "mcpServers" = .obj entries)
    (hall : ∀ p ∈ entries, isObj p.2 = true) :
    get_mcp_servers_from_claude_desktop (.valid (.obj fields)) =
      .ok (entries.map fun p =>
        { id := replaceSpaces p.1, name := p.1, url := .str "",
          server_type := .LOCAL, server_source := .CLAUDE_DESKTOP,
          cmd := jget p.2 "command", cmd_args := jget p.2 "args" }) := by
  unfold get_mcp_servers_from_claude_desktop
  simp only [hm]
  exact claudeLoop_of_all_obj entries hall

theorem C4_claude_one_local_record_per_key_witness :
    jget (.obj [("mcpServers",
        .obj [("A", .obj [("command", .str "x"), ("args", .arr [.str "y"])])])])
      "mcpServers" = .obj [("A", .obj [("command", .str "x"), ("args", .arr [.str "y"])])] ∧
    (∀ p ∈ [("A", JValue.obj [("command", .str "x"), ("args", .arr [.str "y"])])],
      isObj p.2 = true) ∧
    get_mcp_servers_from_claude_desktop (.valid (.obj [("mcpServers",
        .obj [("A", .obj [("command", .str "x"), ("args", .arr [.str "y"])])])])) =
      .ok [{ id := "A", name := "A", url := .str "", server_type := .LOCAL,
             server_source := .CLAUDE_DESKTOP, cmd := .str "x",
             cmd_args := .arr [.str "y"] }] :=
  ⟨rfl, by decide,
    (C4_claude_one_local_record_per_key
      [("mcpServers", .obj [("A", .obj [("command", .str "x"), ("args", .arr [.str "y"])])])]
      [("A", .obj [("command", .str "x"), ("args", .arr [.str "y"])])]
      rfl (by decide)).trans rfl⟩

/-- C1 fails on the code: the spec says no normalizer ever raises, but the
Claude Desktop reader evaluates data.get("mcpServers") outside its
try/except, so a config file holding the valid JSON [1, 2, 3] (a top-level
array) makes it raise AttributeError to its caller instead of returning a
list. -/
theorem C1_claude_raises_on_toplevel_array :
    get_mcp_servers_from_claude_desktop (.valid (.arr [.num 1, .num 2, .num 3])) =
      .error .attributeError := rfl

/-- C6 counterexample: a Cursor config file whose raw text is the invalid
JSON "http://example.com/sse" contains an HTTP-looking substring, yet the
Cursor normalizer returns the empty list, not one record per URL found. -/
theorem C6_counterexample_no_scan :
    startsWithHttp "http://example.com/sse" = true ∧
    get_mcp_servers_from_cursor (.invalid "http://example.com/sse") = .ok [] :=
  ⟨by decide, rfl⟩

/-- C6 amended: for every Cursor config file that exists but whose content
fails to parse as JSON, the normalizer logs a warning and returns the empty
list; there is no raw-text URL scan fallback in the code. -/
theorem C6_cursor_parse_failure_returns_empty (raw : String) :
    get_mcp_servers_from_cursor (.invalid raw) = .ok [] := rfl

/-- C7 fails on the code: get_mcp_servers_from_vscode is a stub that returns
the empty list for every file, whatever settings and URLs it holds, so no
candidate setting key ever produces a record and no file makes the result
non-empty. -/
theorem C7_vscode_always_empty (f : FileData) :
    get_mcp_servers_from_vscode f = [] := by
  cases f <;> rfl

/-- C8 counterexample: a Windsurf legacy "servers" entry with url "" and
command "x" lacks a usable string url, yet it yields a REMOTE record (with
empty url and no cmd), not the claimed LOCAL record with cmd "x": the
name-fallback helper _spec_to_server re-reads the url field and "" passes
its isinstance(url, str) test. -/
theorem C8_counterexample_empty_url_goes_remote :
    get_mcp_servers_from_windsurf (.valid (.obj [("servers",
        .arr [.obj [("url", .str ""), ("command", .str "x")]])])) =
      .ok [{ id := "Unnamed", name := "Unnamed", url := .str "",
             server_type := .REMOTE, server_source := .WINDSURF }] ∧
    SERVER_TYPE.REMOTE ≠ SERVER_TYPE.LOCAL :=
  ⟨rfl, by decide⟩

/-- C8 amended: a Windsurf legacy "servers" entry that is a mapping whose
url field is absent or not a string (an entry whose url is the empty string
instead yields a REMOTE record) yields one LOCAL record whose cmd is the
entry's command field, or its cmd field if command is absent or falsy, and
whose name follows the chain name, then label, then "Unnamed", provided the
value that chain produces is a string (otherwise the entry is skipped). -/
theorem C8_windsurf_legacy_local_records (flds : List (String × JValue)) (n : String)
    (hurl : isStr (jget (.obj flds) "url") = false)
    (hname : pyOr (jget (.obj flds) "name")
        (pyOr (jget (.obj flds) "label") (.str "Unnamed")) = .str n) :
    windsurfLegacyEntry (.obj flds) = .ok (some
      { id := replaceSpaces n, name := n, url := .str "",
        server_type := .LOCAL, server_source := .WINDSURF,
        cmd := pyOr (jget (.obj flds) "command") (jget (.obj flds) "cmd"),
        cmd_args := jget (.obj flds) "args" }) := by
  unfold windsurfLegacyEntry
  simp only [hurl, hname, Bool.not_false, Bool.or_true]
  unfold _spec_to_server
  simp only [hurl]
  rfl

theorem C8_windsurf_legacy_local_records_witness :
    isStr (jget (.obj [("command", .str "x")]) "url") = false ∧
    pyOr (jget (.obj [("command", JValue.str "x")]) "name")
      (pyOr (jget (.obj [("command", JValue.str "x")]) "label") (.str "Unnamed")) =
      .str "Unnamed" ∧
    windsurfLegacyEntry (.obj [("command", .str "x")]) = .ok (some
      { id := "Unnamed", name := "Unnamed", url := .str "",
        server_type := .LOCAL, server_source := .WINDSURF,
        cmd := .str "x", cmd_args := .null }) :=
  ⟨rfl, rfl,
    (C8_windsurf_legacy_local_records [("command", .str "x")] "Unnamed" rfl rfl).trans rfl⟩

/-- C2: for every manifest path that does not exist on the filesystem, the
aggregator get_mcp_servers raises a missing-file condition
(FileNotFoundError carrying the path) rather than returning a value. -/
theorem C2_missing_manifest_raises (fs : String → FileData) (m : String)
    (h : fs m = .missing) :
    get_mcp_servers fs m = .error (.fileNotFoundError m) := by
  unfold get_mcp_servers
  rw [h]

theorem C2_missing_manifest_raises_witness :
    (fun _ : String => FileData.missing) "mcp_server_sources.json" = .missing ∧
    get_mcp_servers (fun _ => .missing) "mcp_server_sources.json" =
      .error (.fileNotFoundError "mcp_server_sources.json") :=
  ⟨rfl, C2_missing_manifest_raises (fun _ => .missing) "mcp_server_sources.json" rfl⟩

/-- C3: for every manifest file that exists but whose content is not valid
JSON, the aggregator raises the malformed-manifest condition
ValueError("Corrupted mcp_server_sources.json"), which differs from the
missing-file condition FileNotFoundError for every path. -/
theorem C3_corrupted_manifest_raises (fs : String → FileData) (m raw : String)
    (h : fs m = .invalid raw) :
    get_mcp_servers fs m = .error (.valueError "Corrupted mcp_server_sources.json") ∧
    ∀ p : String,
      PyExc.valueError "Corrupted mcp_server_sources.json" ≠ PyExc.fileNotFoundError p := by
  constructor
  · unfold get_mcp_servers
    rw [h]
  · intro p hcontra
    exact PyExc.noConfusion hcontra

theorem C3_corrupted_manifest_raises_witness :
    (fun _ : String => FileData.invalid "not json \x7b") "mcp_server_sources.json" =
      .invalid "not json \x7b" ∧
    (get_mcp_servers (fun _ => .invalid "not json \x7b") "mcp_server_sources.json" =
      .error (.valueError "Corrupted mcp_server_sources.json") ∧
    ∀ p : String,
      PyExc.valueError "Corrupted mcp_server_sources.json" ≠ PyExc.fileNotFoundError p) :=
  ⟨rfl, C3_corrupted_manifest_raises (fun _ => .invalid "not json \x7b")
    "mcp_server_sources.json" "not json \x7b" rfl⟩

/-- C9: for every manifest that exists and holds valid JSON whose top level
is not an object, or an object whose "sources" key is missing or not a list
(that is, the source's shape check manifestSources finds no sources list),
the aggregator returns the empty list and does not raise. -/
theorem C9_bad_shape_returns_empty (fs : String → FileData) (m : String)
    (payload : JValue) (h1 : fs m = .valid payload)
    (h2 : manifestSources payload = none) :
    get_mcp_servers fs m = .ok [] := by
  unfold get_mcp_servers
  rw [h1]
  simp only [h2]

theorem C9_bad_shape_returns_empty_witness :
    (fun _ : String => FileData.valid (.obj [("sources", .str "x")]))
      "mcp_server_sources.json" = .valid (.obj [("sources", .str "x")]) ∧
    manifestSources (.obj [("sources", .str "x")]) = none ∧
    get_mcp_servers (fun _ => .valid (.obj [("sources", .str "x")]))
      "mcp_server_sources.json" = .ok [] :=
  ⟨rfl, rfl, C9_bad_shape_returns_empty
    (fun _ => .valid (.obj [("sources", .str "x")])) "mcp_server_sources.json"
    (.obj [("sources", .str "x")]) rfl rfl⟩

/-- The Cursor mcpServers pass on a dict whose mcpServers value is the dict
entries. -/
theorem cursorPrimaryOf_obj (fields entries : List (String × JValue))
    (hm : jget (.obj fields) "mcpServers" = .obj entries) :
    cursorPrimaryOf (.obj fields) = cursorPrimary entries := by
  simp only [cursorPrimaryOf]
  rw [hm]

/-- The Windsurf mcpServers pass on a dict whose mcpServers value is the
dict entries. -/
theorem windsurfPrimaryOf_obj (fields entries : List (String × JValue))
    (hm : jget (.obj fields) "mcpServers" = .obj entries) :
    windsurfPrimaryOf (.obj fields) = windsurfPrimary entries := by
  simp only [windsurfPrimaryOf]
  rw [hm]

/-- With no primary records, the Cursor legacy pass is exactly the legacy
loop over the servers list. -/
theorem cursorLegacyOf_obj_nil (fields : List (String × JValue))
    (items : List JValue) (hl : jget (.obj fields) "servers" = .arr items) :
    cursorLegacyOf (.obj fields) [] = cursorLegacyLoop items := by
  have h0 : cursorLegacyOf (.obj fields) [] =
      (match cursorLegacyLoop items with
       | .error e => .error e
       | .ok more => .ok ([] ++ more)) := by
    simp only [cursorLegacyOf]
    rw [hl]
  rw [h0]
  cases h : cursorLegacyLoop items <;> rfl

/-- With no primary records, the Windsurf legacy pass is exactly the legacy
loop over the servers list. -/
theorem windsurfLegacyOf_obj_nil (fields : List (String × JValue))
    (items : List JValue) (hl : jget (.obj fields) "servers" = .arr items) :
    windsurfLegacyOf (.obj fields) [] = windsurfLegacyLoop items := by
  have h0 : windsurfLegacyOf (.obj fields) [] =
      (match windsurfLegacyLoop items with
       | .error e => .error e
       | .ok more => .ok ([] ++ more)) := by
    simp only [windsurfLegacyOf]
    rw [hl]
  rw [h0]
  cases h : windsurfLegacyLoop items <;> rfl

/-- C10: for both the Cursor and the Windsurf normalizers, on a config whose
JSON carries both a mcpServers mapping and a legacy "servers" list, the
legacy list is consulted exactly when the mcpServers pass produced zero
records: a non-empty primary pass is returned as is and every legacy entry
is ignored, and an empty primary pass (for instance an empty mcpServers
mapping) hands the result over to the legacy loop. -/
theorem C10_legacy_iff_primary_empty (fields entries : List (String × JValue))
    (items : List JValue)
    (hm : jget (.obj fields) "mcpServers" = .obj entries)
    (hl : jget (.obj fields) "servers" = .arr items) :
    (cursorPrimary entries ≠ [] →
      get_mcp_servers_from_cursor (.valid (.obj fields)) =
        .ok (cursorPrimary entries)) ∧
    (cursorPrimary entries = [] →
      get_mcp_servers_from_cursor (.valid (.obj fields)) =
        cursorLegacyLoop items) ∧
    (windsurfPrimary entries ≠ [] →
      get_mcp_servers_from_windsurf (.valid (.obj fields)) =
        .ok (windsurfPrimary entries)) ∧
    (windsurfPrimary entries = [] →
      get_mcp_servers_from_windsurf (.valid (.obj fields)) =
        windsurfLegacyLoop items) := by
  refine ⟨?_, ?_, ?_, ?_⟩
  · intro hne
    simp only [get_mcp_servers_from_cursor]
    rw [cursorPrimaryOf_obj fields entries hm]
    rw [if_neg (by simpa [List.isEmpty_iff] using hne)]
  · intro he
    simp only [get_mcp_servers_from_cursor]
    rw [cursorPrimaryOf_obj fields entries hm, he]
    simpa using cursorLegacyOf_obj_nil fields items hl
  · intro hne
    simp only [get_mcp_servers_from_windsurf]
    rw [windsurfPrimaryOf_obj fields entries hm]
    rw [if_neg (by simpa [List.isEmpty_iff] using hne)]
  · intro he
    simp only [get_mcp_servers_from_windsurf]
    rw [windsurfPrimaryOf_obj fields entries hm, he]
    simpa using windsurfLegacyOf_obj_nil fields items hl

theorem C10_legacy_iff_primary_empty_witness :
    jget (.obj [("mcpServers", .obj [("A", .obj [("command", .str "x")])]),
        ("servers", .arr [.obj [("url", .str "https://u")]])]) "mcpServers" =
      .obj [("A", .obj [("command", .str "x")])] ∧
    jget (.obj [("mcpServers", .obj [("A", .obj [("command", .str "x")])]),
        ("servers", .arr [.obj [("url", .str "https://u")]])]) "servers" =
      .arr [.obj [("url", .str "https://u")]] ∧
    ((cursorPrimary [("A", .obj [("command", .str "x")])] ≠ [] →
      get_mcp_servers_from_cursor (.valid (.obj
        [("mcpServers", .obj [("A", .obj [("command", .str "x")])]),
         ("servers", .arr [.obj [("url", .str "https://u")]])])) =
        .ok (cursorPrimary [("A", .obj [("command", .str "x")])])) ∧
    (cursorPrimary [("A", .obj [("command", .str "x")])] = [] →
      get_mcp_servers_from_cursor (.valid (.obj
        [("mcpServers", .obj [("A", .obj [("command", .str "x")])]),
         ("servers", .arr [.obj [("url", .str "https://u")]])])) =
        cursorLegacyLoop [.obj [("url", .str "https://u")]]) ∧
    (windsurfPrimary [("A", .obj [("command", .str "x")])] ≠ [] →
      get_mcp_servers_from_windsurf (.valid (.obj
        [("mcpServers", .obj [("A", .obj [("command", .str "x")])]),
         ("servers", .arr [.obj [("url", .str "https://u")]])])) =
        .ok (windsurfPrimary [("A", .obj [("command", .str "x")])])) ∧
    (windsurfPrimary [("A", .obj [("command", .str "x")])] = [] →
      get_mcp_servers_from_windsurf (.valid (.obj
        [("mcpServers", .obj [("A", .obj [("command", .str "x")])]),
         ("servers", .arr [.obj [("url", .str "https://u")]])])) =
        windsurfLegacyLoop [.obj [("url", .str "https://u")]])) :=
  ⟨rfl, rfl,
    C10_legacy_iff_primary_empty
      [("mcpServers", .obj [("A", .obj [("command", .str "x")])]),
       ("servers", .arr [.obj [("url", .str "https://u")]])]
      [("A", .obj [("command", .str "x")])]
      [.obj [("url", .str "https://u")]] rfl rfl⟩

/-- C5 counterexample: a Cursor mcpServers entry whose url field is the
empty string yields a REMOTE record whose url is the empty string, so a
REMOTE record's url need not be a non-empty string. -/
theorem C5_counterexample_remote_empty_url :
    get_mcp_servers_from_cursor
        (.valid (.obj [("mcpServers", .obj [("A", .obj [("url", .str "")])])])) =
      .ok [{ id := "A", name := "A", url := .str "",
             server_type := .REMOTE, server_source := .CURSOR }] ∧
    ¬ ∃ u : String, JValue.str "" = JValue.str u ∧ u ≠ "" := by
  refine ⟨rfl, ?_⟩
  rintro ⟨u, hu, hne⟩
  cases hu
  exact hne rfl

/-- Every record built by the Cursor helper _create_server satisfies the
url invariant. -/
theorem urlInv_create_server (n : String) (spec : JValue) :
    urlInv (_create_server n spec) := by
  unfold _create_server urlInv
  by_cases h : (isObj spec && isStr (jget spec "url")) = true
  · rw [if_pos h]
    constructor
    · intro hr
      have h12 : isObj spec = true ∧ isStr (jget spec "url") = true := by
        simpa [Bool.and_eq_true] using h
      exact Or.inl h12.2
    · intro hc
      exact nomatch hc
  · rw [if_neg h]
    constructor
    · intro hc
      exact nomatch hc
    · intro hr
      rfl

/-- Every record in a Cursor mcpServers pass satisfies the url invariant. -/
theorem urlInv_cursorPrimary (entries : List (String × JValue)) (s : Server)
    (hs : s ∈ cursorPrimary entries) : urlInv s := by
  obtain ⟨p, -, rfl⟩ := List.mem_map.mp hs
  exact urlInv_create_server p.1 p.2

/-- Every record the Cursor legacy loop body keeps satisfies the url
invariant. -/
theorem urlInv_cursorLegacyEntry (entry : JValue) (s : Server)
    (h : cursorLegacyEntry entry = .ok (some s)) : urlInv s := by
  cases entry with
  | obj fields =>
    simp only [cursorLegacyEntry] at h
    by_cases hu : truthy (getD fields "url" .null) = true
    · rw [if_neg (by simp [hu])] at h
      cases hn : getD fields "name" (getD fields "url" .null) with
      | str name =>
        rw [hn] at h
        injection h with h1
        injection h1 with h2
        subst h2
        exact ⟨fun _ => Or.inr hu, fun hc => nomatch hc⟩
      | null => rw [hn] at h; simp at h
      | bool b => rw [hn] at h; simp at h
      | num n => rw [hn] at h; simp at h
      | arr items => rw [hn] at h; simp at h
      | obj flds => rw [hn] at h; simp at h
    · rw [if_pos (by simp [hu])] at h
      simp at h
  | null => simp [cursorLegacyEntry] at h
  | bool b => simp [cursorLegacyEntry] at h
  | num n => simp [cursorLegacyEntry] at h
  | str t => simp [cursorLegacyEntry] at h
  | arr items => simp [cursorLegacyEntry] at h

/-- Every record the Cursor legacy loop returns satisfies the url
invariant. -/
theorem urlInv_cursorLegacyLoop (items : List JValue) (l : List Server)
    (h : cursorLegacyLoop items = .ok l) (s : Server) (hs : s ∈ l) : urlInv s := by
  induction items generalizing l with
  | nil =>
    injection h with h1
    subst h1
    cases hs
  | cons entry rest ih =>
    unfold cursorLegacyLoop at h
    cases he : cursorLegacyEntry entry with
    | error e => rw [he] at h; simp at h
    | ok o =>
      rw [he] at h
      cases hr : cursorLegacyLoop rest with
      | error e => rw [hr] at h; simp at h
      | ok l1 =>
        rw [hr] at h
        cases o with
        | none =>
          injection h with h1
          subst h1
          exact ih l1 hr hs
        | some s1 =>
          injection h with h1
          subst h1
          rcases List.mem_cons.mp hs with rfl | hs1
          · exact urlInv_cursorLegacyEntry entry s he
          · exact ih l1 hr hs1

/-- Every record the Claude Desktop loop body builds satisfies the url
invariant. -/
theorem urlInv_claudeEntry (n : String) (v : JValue) (s : Server)
    (h : claudeEntry n v = .ok s) : urlInv s := by
  cases v with
  | obj flds =>
    injection h with h1
    subst h1
    exact ⟨fun hc => (nomatch hc), fun _ => rfl⟩
  | null => simp [claudeEntry] at h
  | bool b => simp [claudeEntry] at h
  | num m => simp [claudeEntry] at h
  | str t => simp [claudeEntry] at h
  | arr items => simp [claudeEntry] at h

/-- Every record the Claude Desktop loop returns satisfies the url
invariant. -/
theorem urlInv_claudeLoop (entries : List (String × JValue)) (l : List Server)
    (h : claudeLoop entries = .ok l) (s : Server) (hs : s ∈ l) : urlInv s := by
  induction entries generalizing l with
  | nil =>
    injection h with h1
    subst h1
    cases hs
  | cons p rest ih =>
    obtain ⟨n, v⟩ := p
    unfold claudeLoop at h
    cases he : claudeEntry n v with
    | error e => rw [he] at h; simp at h
    | ok s1 =>
      rw [he] at h
      cases hr : claudeLoop rest with
      | error e => rw [hr] at h; simp at h
      | ok l1 =>
        rw [hr] at h
        injection h with h1
        subst h1
        rcases List.mem_cons.mp hs with rfl | hs1
        · exact urlInv_claudeEntry n v s he
        · exact ih l1 hr hs1

/-- Every record _spec_to_server hands back satisfies the url invariant. -/
theorem urlInv_spec_to_server (name spec : JValue) (s : Server)
    (h : _spec_to_server name spec = some s) : urlInv s := by
  cases name with
  | str n =>
    cases spec with
    | obj flds =>
      simp only [_spec_to_server] at h
      by_cases hu : isStr (jget (.obj flds) "url") = true
      · rw [if_pos hu] at h
        injection h with h1
        subst h1
        exact And.intro (fun _ => Or.inl hu) (fun hc => nomatch hc)
      · rw [if_neg hu] at h
        injection h with h1
        subst h1
        exact ⟨fun hc => (nomatch hc), fun _ => rfl⟩
    | null => simp [_spec_to_server] at h
    | bool b => simp [_spec_to_server] at h
    | num m => simp [_spec_to_server] at h
    | str t => simp [_spec_to_server] at h
    | arr items => simp [_spec_to_server] at h
  | null => simp [_spec_to_server] at h
  | bool b => simp [_spec_to_server] at h
  | num m => simp [_spec_to_server] at h
  | arr items => simp [_spec_to_server] at h
  | obj flds => simp [_spec_to_server] at h

/-- Every record in a Windsurf mcpServers pass satisfies the url
invariant. -/
theorem urlInv_windsurfPrimary (entries : List (String × JValue)) (s : Server)
    (hs : s ∈ windsurfPrimary entries) : urlInv s := by
  obtain ⟨p, -, hp⟩ := List.mem_filterMap.mp hs
  exact urlInv_spec_to_server (.str p.1) p.2 s hp

/-- Every record the Windsurf legacy loop body keeps satisfies the url
invariant. -/
theorem urlInv_windsurfLegacyEntry (spec : JValue) (s : Server)
    (h : windsurfLegacyEntry spec = .ok (some s)) : urlInv s := by
  cases spec with
  | obj flds =>
    simp only [windsurfLegacyEntry] at h
    by_cases hc : (!truthy (jget (.obj flds) "url") || !isStr (jget (.obj flds) "url")) = true
    · rw [if_pos hc] at h
      injection h with h1
      exact urlInv_spec_to_server _ _ s h1
    · rw [if_neg hc] at h
      have hcc : truthy (jget (.obj flds) "url") = true ∧
          isStr (jget (.obj flds) "url") = true := by
        constructor <;> by_contra hx <;> apply hc <;> simp [hx]
      cases hn : pyOr (jget (.obj flds) "name") (jget (.obj flds) "url") with
      | str name =>
        rw [hn] at h
        injection h with h1
        injection h1 with h2
        subst h2
        exact And.intro (fun _ => Or.inr hcc.1) (fun hx => nomatch hx)
      | null => rw [hn] at h; simp at h
      | bool b => rw [hn] at h; simp at h
      | num m => rw [hn] at h; simp at h
      | arr items => rw [hn] at h; simp at h
      | obj flds2 => rw [hn] at h; simp at h
  | null => simp [windsurfLegacyEntry] at h
  | bool b => simp [windsurfLegacyEntry] at h
  | num m => simp [windsurfLegacyEntry] at h
  | str t => simp [windsurfLegacyEntry] at h
  | arr items => simp [windsurfLegacyEntry] at h

/-- Every record the Windsurf legacy loop returns satisfies the url
invariant. -/
theorem urlInv_windsurfLegacyLoop (items : List JValue) (l : List Server)
    (h : windsurfLegacyLoop items = .ok l) (s : Server) (hs : s ∈ l) : urlInv s := by
  induction items generalizing l with
  | nil =>
    injection h with h1
    subst h1
    cases hs
  | cons spec rest ih =>
    unfold windsurfLegacyLoop at h
    cases he : windsurfLegacyEntry spec with
    | error e => rw [he] at h; simp at h
    | ok o =>
      rw [he] at h
      cases hr : windsurfLegacyLoop rest with
      | error e => rw [hr] at h; simp at h
      | ok l1 =>
        rw [hr] at h
        cases o with
        | none =>
          injection h with h1
          subst h1
          exact ih l1 hr hs
        | some s1 =>
          injection h with h1
          subst h1
          rcases List.mem_cons.mp hs with rfl | hs1
          · exact urlInv_windsurfLegacyEntry spec s he
          · exact ih l1 hr hs1

/-- Every record in the Cursor mcpServers pass of any decoded config
satisfies the url invariant. -/
theorem urlInv_cursorPrimaryOf (data : JValue) (s : Server)
    (hs : s ∈ cursorPrimaryOf data) : urlInv s := by
  cases data with
  | obj fields =>
    simp only [cursorPrimaryOf] at hs
    cases hm : jget (.obj fields) "mcpServers" with
    | obj entries => rw [hm] at hs; exact urlInv_cursorPrimary entries s hs
    | null => rw [hm] at hs; cases hs
    | bool b => rw [hm] at hs; cases hs
    | num m => rw [hm] at hs; cases hs
    | str t => rw [hm] at hs; cases hs
    | arr items => rw [hm] at hs; cases hs
  | null => cases hs
  | bool b => cases hs
  | num m => cases hs
  | str t => cases hs
  | arr items => cases hs

/-- The Cursor legacy pass preserves the url invariant. -/
theorem urlInv_cursorLegacyOf (data : JValue) (servers : List Server)
    (hserv : ∀ t ∈ servers, urlInv t) (l : List Server)
    (h : cursorLegacyOf data servers = .ok l) (s : Server) (hs : s ∈ l) :
    urlInv s := by
  cases data with
  | obj fields =>
    simp only [cursorLegacyOf] at h
    cases hl : jget (.obj fields) "servers" with
    | arr items =>
      rw [hl] at h
      have h2 : (match cursorLegacyLoop items with
          | Except.error e => Except.error (α := List Server) e
          | Except.ok more => Except.ok (servers ++ more)) = Except.ok l := h
      cases hr : cursorLegacyLoop items with
      | error e => rw [hr] at h2; simp at h2
      | ok more =>
        rw [hr] at h2
        simp only [Except.ok.injEq] at h2
        subst h2
        rcases List.mem_append.mp hs with h1 | h2
        · exact hserv s h1
        · exact urlInv_cursorLegacyLoop items more hr s h2
    | null =>
      rw [hl] at h
      simp only [Except.ok.injEq] at h
      subst h
      exact hserv s hs
    | bool b =>
      rw [hl] at h
      simp only [Except.ok.injEq] at h
      subst h
      exact hserv s hs
    | num m =>
      rw [hl] at h
      simp only [Except.ok.injEq] at h
      subst h
      exact hserv s hs
    | str t =>
      rw [hl] at h
      simp only [Except.ok.injEq] at h
      subst h
      exact hserv s hs
    | obj flds2 =>
      rw [hl] at h
      simp only [Except.ok.injEq] at h
      subst h
      exact hserv s hs
  | null =>
    simp only [cursorLegacyOf, Except.ok.injEq] at h
    subst h
    exact hserv s hs
  | bool b =>
    simp only [cursorLegacyOf, Except.ok.injEq] at h
    subst h
    exact hserv s hs
  | num m =>
    simp only [cursorLegacyOf, Except.ok.injEq] at h
    subst h
    exact hserv s hs
  | str t =>
    simp only [cursorLegacyOf, Except.ok.injEq] at h
    subst h
    exact hserv s hs
  | arr items =>
    simp only [cursorLegacyOf, Except.ok.injEq] at h
    subst h
    exact hserv s hs

/-- Every record the Cursor normalizer returns satisfies the url
invariant. -/
theorem urlInv_cursor (f : FileData) (l : List Server)
    (h : get_mcp_servers_from_cursor f = .ok l) (s : Server) (hs : s ∈ l) :
    urlInv s := by
  cases f with
  | missing => injection h with h1; subst h1; cases hs
  | unreadable => injection h with h1; subst h1; cases hs
  | invalid raw => injection h with h1; subst h1; cases hs
  | valid data =>
    simp only [get_mcp_servers_from_cursor] at h
    by_cases hpe : (cursorPrimaryOf data).isEmpty
    · rw [if_pos hpe] at h
      exact urlInv_cursorLegacyOf data (cursorPrimaryOf data)
        (fun t ht => urlInv_cursorPrimaryOf data t ht) l h s hs
    · rw [if_neg hpe] at h
      injection h with h1
      subst h1
      exact urlInv_cursorPrimaryOf data s hs

/-- Every record the Claude Desktop normalizer returns satisfies the url
invariant. -/
theorem urlInv_claude_desktop (f : FileData) (l : List Server)
    (h : get_mcp_servers_from_claude_desktop f = .ok l) (s : Server)
    (hs : s ∈ l) : urlInv s := by
  cases f with
  | missing => injection h with h1; subst h1; cases hs
  | unreadable => injection h with h1; subst h1; cases hs
  | invalid raw => injection h with h1; subst h1; cases hs
  | valid data =>
    cases data with
    | obj fields =>
      simp only [get_mcp_servers_from_claude_desktop] at h
      cases hm : jget (.obj fields) "mcpServers" with
      | obj entries => rw [hm] at h; exact urlInv_claudeLoop entries l h s hs
      | null => rw [hm] at h; injection h with h1; subst h1; cases hs
      | bool b => rw [hm] at h; injection h with h1; subst h1; cases hs
      | num m => rw [hm] at h; injection h with h1; subst h1; cases hs
      | str t => rw [hm] at h; injection h with h1; subst h1; cases hs
      | arr items => rw [hm] at h; injection h with h1; subst h1; cases hs
    | null => simp [get_mcp_servers_from_claude_desktop] at h
    | bool b => simp [get_mcp_servers_from_claude_desktop] at h
    | num m => simp [get_mcp_servers_from_claude_desktop] at h
    | str t => simp [get_mcp_servers_from_claude_desktop] at h
    | arr items => simp [get_mcp_servers_from_claude_desktop] at h

/-- Every record in the Windsurf mcpServers pass of any decoded config
satisfies the url invariant. -/
theorem urlInv_windsurfPrimaryOf (data : JValue) (s : Server)
    (hs : s ∈ windsurfPrimaryOf data) : urlInv s := by
  cases data with
  | obj fields =>
    simp only [windsurfPrimaryOf] at hs
    cases hm : jget (.obj fields) "mcpServers" with
    | obj entries => rw [hm] at hs; exact urlInv_windsurfPrimary entries s hs
    | null => rw [hm] at hs; cases hs
    | bool b => rw [hm] at hs; cases hs
    | num m => rw [hm] at hs; cases hs
    | str t => rw [hm] at hs; cases hs
    | arr items => rw [hm] at hs; cases hs
  | null => cases hs
  | bool b => cases hs
  | num m => cases hs
  | str t => cases hs
  | arr items => cases hs

/-- The Windsurf legacy pass preserves the url invariant. -/
theorem urlInv_windsurfLegacyOf (data : JValue) (servers : List Server)
    (hserv : ∀ t ∈ servers, urlInv t) (l : List Server)
    (h : windsurfLegacyOf data servers = .ok l) (s : Server) (hs : s ∈ l) :
    urlInv s := by
  cases data with
  | obj fields =>
    simp only [windsurfLegacyOf] at h
    cases hl : jget (.obj fields) "servers" with
    | arr items =>
      rw [hl] at h
      have h2 : (match windsurfLegacyLoop items with
          | Except.error e => Except.error (α := List Server) e
          | Except.ok more => Except.ok (servers ++ more)) = Except.ok l := h
      cases hr : windsurfLegacyLoop items with
      | error e => rw [hr] at h2; simp at h2
      | ok more =>
        rw [hr] at h2
        simp only [Except.ok.injEq] at h2
        subst h2
        rcases List.mem_append.mp hs with h1 | h2
        · exact hserv s h1
        · exact urlInv_windsurfLegacyLoop items more hr s h2
    | null =>
      rw [hl] at h
      simp only [Except.ok.injEq] at h
      subst h
      exact hserv s hs
    | bool b =>
      rw [hl] at h
      simp only [Except.ok.injEq] at h
      subst h
      exact hserv s hs
    | num m =>
      rw [hl] at h
      simp only [Except.ok.injEq] at h
      subst h
      exact hserv s hs
    | str t =>
      rw [hl] at h
      simp only [Except.ok.injEq] at h
      subst h
      exact hserv s hs
    | obj flds2 =>
      rw [hl] at h
      simp only [Except.ok.injEq] at h
      subst h
      exact hserv s hs
  | null =>
    simp only [windsurfLegacyOf, Except.ok.injEq] at h
    subst h
    exact hserv s hs
  | bool b =>
    simp only [windsurfLegacyOf, Except.ok.injEq] at h
    subst h
    exact hserv s hs
  | num m =>
    simp only [windsurfLegacyOf, Except.ok.injEq] at h
    subst h
    exact hserv s hs
  | str t =>
    simp only [windsurfLegacyOf, Except.ok.injEq] at h
    subst h
    exact hserv s hs
  | arr items =>
    simp only [windsurfLegacyOf, Except.ok.injEq] at h
    subst h
    exact hserv s hs

/-- Every record the Windsurf normalizer returns satisfies the url
invariant. -/
theorem urlInv_windsurf (f : FileData) (l : List Server)
    (h : get_mcp_servers_from_windsurf f = .ok l) (s : Server) (hs : s ∈ l) :
    urlInv s := by
  cases f with
  | missing => injection h with h1; subst h1; cases hs
  | unreadable => injection h with h1; subst h1; cases hs
  | invalid raw => injection h with h1; subst h1; cases hs
  | valid data =>
    simp only [get_mcp_servers_from_windsurf] at h
    by_cases hpe : (windsurfPrimaryOf data).isEmpty
    · rw [if_pos hpe] at h
      exact urlInv_windsurfLegacyOf data (windsurfPrimaryOf data)
        (fun t ht => urlInv_windsurfPrimaryOf data t ht) l h s hs
    · rw [if_neg hpe] at h
      injection h with h1
      subst h1
      exact urlInv_windsurfPrimaryOf data s hs

/-- The per-descriptor dispatch preserves the url invariant whenever the
normalizer it runs does. -/
theorem urlInv_sourceDispatch (fields : List (String × JValue))
    (normalizer : FileData → Except PyExc (List Server))
    (fs : String → FileData) (acc : List Server)
    (hN : ∀ fd r t, normalizer fd = .ok r → t ∈ r → urlInv t)
    (hacc : ∀ t ∈ acc, urlInv t) (acc2 : List Server)
    (h : sourceDispatch fields normalizer fs acc = .ok acc2)
    (s : Server) (hs : s ∈ acc2) : urlInv s := by
  simp only [sourceDispatch] at h
  by_cases hp : truthy (getD fields "path" .null) = true
  · rw [if_neg (by simp [hp])] at h
    cases hpv : getD fields "path" .null with
    | str t =>
      rw [hpv] at h
      have h2 : (match normalizer (fs t) with
          | Except.error e => Except.error (α := List Server) e
          | Except.ok r => Except.ok (acc ++ r)) = Except.ok acc2 := h
      cases hn : normalizer (fs t) with
      | error e => rw [hn] at h2; simp at h2
      | ok r =>
        rw [hn] at h2
        simp only [Except.ok.injEq] at h2
        subst h2
        rcases List.mem_append.mp hs with h1 | h1
        · exact hacc s h1
        · exact hN (fs t) r s hn h1
    | null => rw [hpv] at hp; simp [truthy] at hp
    | bool b => rw [hpv] at h; simp at h
    | num m => rw [hpv] at h; simp at h
    | arr items => rw [hpv] at h; simp at h
    | obj flds => rw [hpv] at h; simp at h
  · rw [if_pos (by simp [hp])] at h
    injection h with h1
    subst h1
    exact hacc s hs

/-- One aggregator iteration preserves the url invariant. -/
theorem urlInv_processSource (fs : String → FileData) (acc : List Server)
    (src : JValue) (hacc : ∀ t ∈ acc, urlInv t) (acc2 : List Server)
    (h : processSource fs acc src = .ok acc2) (s : Server) (hs : s ∈ acc2) :
    urlInv s := by
  cases src with
  | obj fields =>
    simp only [processSource] at h
    by_cases hid : truthy (getD fields "id" .null) = true
    · rw [if_neg (by simp [hid])] at h
      by_cases h1 : jeqStr (getD fields "id" .null) "claude-desktop" = true
      · rw [if_pos h1] at h
        exact urlInv_sourceDispatch fields get_mcp_servers_from_claude_desktop
          fs acc (fun fd r t hn ht => urlInv_claude_desktop fd r hn t ht)
          hacc acc2 h s hs
      · rw [if_neg h1] at h
        by_cases h2 : jeqStr (getD fields "id" .null) "cursor" = true
        · rw [if_pos h2] at h
          exact urlInv_sourceDispatch fields get_mcp_servers_from_cursor
            fs acc (fun fd r t hn ht => urlInv_cursor fd r hn t ht)
            hacc acc2 h s hs
        · rw [if_neg h2] at h
          by_cases h3 : jeqStr (getD fields "id" .null) "windsurf" = true
          · rw [if_pos h3] at h
            exact urlInv_sourceDispatch fields get_mcp_servers_from_windsurf
              fs acc (fun fd r t hn ht => urlInv_windsurf fd r hn t ht)
              hacc acc2 h s hs
          · rw [if_neg h3] at h
            injection h with h4
            subst h4
            exact hacc s hs
    · rw [if_pos (by simp [hid])] at h
      injection h with h1
      subst h1
      exact hacc s hs
  | null => simp [processSource] at h
  | bool b => simp [processSource] at h
  | num m => simp [processSource] at h
  | str t => simp [processSource] at h
  | arr items => simp [processSource] at h

/-- The whole aggregator loop preserves the url invariant. -/
theorem urlInv_aggLoop (fs : String → FileData) (srcs : List JValue) :
    ∀ acc l, (∀ t ∈ acc, urlInv t) → aggLoop fs srcs acc = .ok l →
      ∀ s ∈ l, urlInv s := by
  induction srcs with
  | nil =>
    intro acc l hacc h s hs
    injection h with h1
    subst h1
    exact hacc s hs
  | cons src rest ih =>
    intro acc l hacc h s hs
    unfold aggLoop at h
    cases hp : processSource fs acc src with
    | error e => rw [hp] at h; simp at h
    | ok acc2 =>
      rw [hp] at h
      exact ih acc2 l
        (fun t ht => urlInv_processSource fs acc src hacc acc2 hp t ht) h s hs

/-- Every record the aggregator returns satisfies the url invariant. -/
theorem urlInv_get_mcp_servers (fs : String → FileData) (m : String)
    (l : List Server) (h : get_mcp_servers fs m = .ok l) (s : Server)
    (hs : s ∈ l) : urlInv s := by
  unfold get_mcp_servers at h
  cases hf : fs m with
  | missing => rw [hf] at h; simp at h
  | unreadable => rw [hf] at h; simp at h
  | invalid raw => rw [hf] at h; simp at h
  | valid payload =>
    rw [hf] at h
    have h2 : (match manifestSources payload with
        | none => Except.ok (ε := PyExc) ([] : List Server)
        | some sources => aggLoop fs sources []) = Except.ok l := h
    cases hms : manifestSources payload with
    | none =>
      rw [hms] at h2
      injection h2 with h3
      subst h3
      cases hs
    | some sources =>
      rw [hms] at h2
      exact urlInv_aggLoop fs sources [] l (fun t ht => absurd ht (by simp)) h2 s hs

/-- C5 amended: every Server record returned by any normalizer, and hence by
the aggregator, satisfies: if its server_type is LOCAL its url is the empty
string, and if its server_type is REMOTE its url is a string (possibly
empty: see the counterexample) or a truthy value (the legacy Cursor list
accepts any truthy url). -/
theorem C5_every_record_satisfies_urlInv (f : FileData) (fs : String → FileData)
    (m : String) (l : List Server) (s : Server) (hs : s ∈ l) :
    (get_mcp_servers_from_claude_desktop f = .ok l → urlInv s) ∧
    (get_mcp_servers_from_cursor f = .ok l → urlInv s) ∧
    (get_mcp_servers_from_vscode f = l → urlInv s) ∧
    (get_mcp_servers_from_windsurf f = .ok l → urlInv s) ∧
    (get_mcp_servers fs m = .ok l → urlInv s) := by
  refine ⟨fun h => urlInv_claude_desktop f l h s hs,
          fun h => urlInv_cursor f l h s hs,
          fun h => ?_,
          fun h => urlInv_windsurf f l h s hs,
          fun h => urlInv_get_mcp_servers fs m l h s hs⟩
  have hempty : get_mcp_servers_from_vscode f = [] := by cases f <;> rfl
  rw [hempty] at h
  subst h
  cases hs

theorem C5_every_record_satisfies_urlInv_witness :
    urlInv { id := "A", name := "A", url := .str "", server_type := .LOCAL,
             server_source := .CLAUDE_DESKTOP, cmd := .str "x",
             cmd_args := .arr [.str "y"] } :=
  (C5_every_record_satisfies_urlInv
    (.valid (.obj [("mcpServers",
      .obj [("A", .obj [("command", .str "x"), ("args", .arr [.str "y"])])])]))
    (fun _ => .missing) "mcp_server_sources.json"
    [{ id := "A", name := "A", url := .str "", server_type := .LOCAL,
       server_source := .CLAUDE_DESKTOP, cmd := .str "x",
       cmd_args := .arr [.str "y"] }]
    { id := "A", name := "A", url := .str "", server_type := .LOCAL,
      server_source := .CLAUDE_DESKTOP, cmd := .str "x",
      cmd_args := .arr [.str "y"] }
    (List.mem_singleton.mpr rfl)).1 rfl
